import Mathlib

/-!
Shallow embedding of the core of the AI-Werewolf repository
(`src/shared/lib/src/werewolfCommunicationSystem.ts`): the `AIMemorySystem`
(memory store) and the `WerewolfCommunicationSystem` (coordination engine).

Modelling conventions:
* TypeScript `number` scores are modelled as `ℚ`.  Every numeric constant in
  the source is a multiple of 0.1, so rational arithmetic coincides with the
  JS float arithmetic on all comparisons performed by the code.
* Because Mathlib marks the core `Rat` operations `irreducible`, the embedding
  uses executable wrappers (`qadd`, `qmul`, ...) built from `mkRat`, together
  with bridge lemmas equating them to the ordinary field operations.
* JS `Array.prototype.sort` is stable (ES2019); a stable sort is uniquely
  determined by the comparator, so it is modelled by a stable insertion sort
  (`sortByDesc`, descending by a score function, ties keeping original order).
* JS `Map` preserves insertion order; it is modelled by an association list
  where `set` on an existing key keeps its position.
* `Object.entries`/`Object.values` iteration over the per-round speech/vote
  records is modelled by a `List` of per-round lists in iteration order; the
  code never reads the keys.
* `PlayerId` is a JS `number`; it is modelled as `Nat`, and the JS truthiness
  of a number (`0` is falsy) is modelled explicitly where the source relies
  on it (`bestTarget || ...`).
* Fallible code (the source can dereference `undefined`, e.g.
  `context.alivePlayers[0].id` on an empty list) is modelled with `Option`:
  `none` marks a thrown `TypeError`.
* The `id`/`timestamp` fields built from `Date.now()`/`Math.random()` are
  nondeterministic and read by no logic in the core; they are omitted.
* `String#toLowerCase` is modelled on the character list; it agrees with JS
  on the ASCII/Chinese texts the code matches against.
-/

/-- `leadsWith p l` : the list `p` is an initial segment of `l`. -/
def leadsWith : List Char → List Char → Bool
  | [], _ => true
  | _ :: _, [] => false
  | a :: as, b :: bs => a == b && leadsWith as bs

/-- `containsSeq p l` : the list `p` occurs contiguously inside `l`
(JS `String#includes` on the underlying characters). -/
def containsSeq (p : List Char) : List Char → Bool
  | [] => leadsWith p []
  | l@(_ :: rest) => leadsWith p l || containsSeq p rest

/-- JS `s.includes(pat)`. -/
def strIncludes (s pat : String) : Bool := containsSeq pat.data s.data

/-- JS `s.toLowerCase()` (character-wise; agrees with JS on the texts used). -/
def jsToLower (s : String) : String := ⟨s.data.map Char.toLower⟩

/-- Executable addition on `ℚ` (Mathlib's `Rat.add` is `irreducible`). -/
def qadd (a b : ℚ) : ℚ := mkRat (a.num * b.den + b.num * a.den) (a.den * b.den)

/-- Executable multiplication on `ℚ`. -/
def qmul (a b : ℚ) : ℚ := mkRat (a.num * b.num) (a.den * b.den)

/-- Executable subtraction on `ℚ`. -/
def qsub (a b : ℚ) : ℚ := mkRat (a.num * b.den - b.num * a.den) (a.den * b.den)

/-- Executable halving on `ℚ` (JS `x / 2`). -/
def qhalf (a : ℚ) : ℚ := mkRat a.num (a.den * 2)

/-- Executable `Math.min` on `ℚ`. -/
def qmin (a b : ℚ) : ℚ := if a ≤ b then a else b

/-- Executable embedding of a `Nat` count into `ℚ`. -/
def qofNat (n : Nat) : ℚ := mkRat n 1

/-- JS `Math.round` on an exact rational: `⌊x + 1/2⌋`. -/
def jsRound (a : ℚ) : Int := (qadd a (mkRat 1 2)).floor

theorem qadd_eq (a b : ℚ) : qadd a b = a + b := by
  rw [qadd, Rat.mkRat_eq_div]
  have ha : ((a.den : ℚ)) ≠ 0 := by exact_mod_cast a.den_nz
  have hb : ((b.den : ℚ)) ≠ 0 := by exact_mod_cast b.den_nz
  push_cast
  rw [eq_comm]
  conv_lhs => rw [← Rat.num_div_den a, ← Rat.num_div_den b]
  field_simp
  try ring

theorem qmul_eq (a b : ℚ) : qmul a b = a * b := by
  rw [qmul, Rat.mkRat_eq_div]
  have ha : ((a.den : ℚ)) ≠ 0 := by exact_mod_cast a.den_nz
  have hb : ((b.den : ℚ)) ≠ 0 := by exact_mod_cast b.den_nz
  push_cast
  rw [eq_comm]
  conv_lhs => rw [← Rat.num_div_den a, ← Rat.num_div_den b]
  field_simp
  try ring

theorem qsub_eq (a b : ℚ) : qsub a b = a - b := by
  rw [qsub, Rat.mkRat_eq_div]
  have ha : ((a.den : ℚ)) ≠ 0 := by exact_mod_cast a.den_nz
  have hb : ((b.den : ℚ)) ≠ 0 := by exact_mod_cast b.den_nz
  push_cast
  rw [eq_comm]
  conv_lhs => rw [← Rat.num_div_den a, ← Rat.num_div_den b]
  field_simp
  try ring

theorem qhalf_eq (a : ℚ) : qhalf a = a / 2 := by
  rw [qhalf, Rat.mkRat_eq_div]
  have ha : ((a.den : ℚ)) ≠ 0 := by exact_mod_cast a.den_nz
  push_cast
  rw [eq_comm]
  conv_lhs => rw [← Rat.num_div_den a]
  field_simp
  try ring

theorem qmin_eq (a b : ℚ) : qmin a b = min a b := by
  rw [qmin, min_def]

theorem qofNat_eq (n : Nat) : qofNat n = (n : ℚ) := by
  rw [qofNat, Rat.mkRat_eq_div]
  simp

/-- Stable insertion of `x` into a list sorted descending by `score`;
`x` is placed before the first element that does not strictly beat it
(so ties keep the original order, as JS's stable sort does). -/
def insertByDesc (score : α → ℚ) (x : α) : List α → List α
  | [] => [x]
  | y :: ys => if score x < score y then y :: insertByDesc score x ys else x :: y :: ys

/-- Stable sort, descending by `score`: the unique result of JS
`arr.sort((a, b) => score(b) - score(a))`. -/
def sortByDesc (score : α → ℚ) : List α → List α
  | [] => []
  | x :: xs => insertByDesc score x (sortByDesc score xs)

theorem mem_insertByDesc {score : α → ℚ} {x a : α} {l : List α} :
    a ∈ insertByDesc score x l ↔ a = x ∨ a ∈ l := by
  induction l with
  | nil => simp [insertByDesc]
  | cons y ys ih =>
      rw [insertByDesc]
      split
      · simp only [List.mem_cons, ih]
        tauto
      · simp only [List.mem_cons]

theorem mem_sortByDesc {score : α → ℚ} {a : α} {l : List α} :
    a ∈ sortByDesc score l ↔ a ∈ l := by
  induction l with
  | nil => simp [sortByDesc]
  | cons y ys ih =>
      rw [sortByDesc]
      rw [mem_insertByDesc]
      simp [ih]

theorem length_insertByDesc (score : α → ℚ) (x : α) (l : List α) :
    (insertByDesc score x l).length = l.length + 1 := by
  induction l with
  | nil => rfl
  | cons y ys ih =>
      rw [insertByDesc]
      split
      · simp [ih]
      · simp

theorem length_sortByDesc (score : α → ℚ) (l : List α) :
    (sortByDesc score l).length = l.length := by
  induction l with
  | nil => rfl
  | cons y ys ih =>
      rw [sortByDesc, length_insertByDesc, ih]
      rfl

/-- JS `Map#get` on an insertion-ordered association list. -/
def mapGet [BEq κ] (m : List (κ × α)) (k : κ) : Option α :=
  (m.find? (fun p => p.1 == k)).map (fun p => p.2)

/-- JS `Map#has`. -/
def mapHas [BEq κ] (m : List (κ × α)) (k : κ) : Bool :=
  m.any (fun p => p.1 == k)

/-- JS `Map#set`: overwrites in place if the key exists (keeping its
insertion position), otherwise appends at the end. -/
def mapSet [BEq κ] (m : List (κ × α)) (k : κ) (v : α) : List (κ × α) :=
  if mapHas m k then m.map (fun p => if p.1 == k then (k, v) else p)
  else m ++ [(k, v)]

/-- Player roles (`Role` enum of `@ai-werewolf/types`; the four values the
core dispatches on). -/
inductive Role where
  | werewolf
  | seer
  | witch
  | villager
deriving DecidableEq, Repr

/-- `GamePhase` of `@ai-werewolf/types` (the core never branches on it). -/
inductive GamePhase where
  | day
  | night
deriving DecidableEq, Repr

/-- A speech record: speaker id and text (the two fields the core reads). -/
structure Speech where
  playerId : Nat
  content : String
deriving DecidableEq, Repr

/-- A vote record: voter id and target id. -/
structure Vote where
  voterId : Nat
  targetId : Nat
deriving DecidableEq, Repr

/-- A roster entry; the core only ever reads `.id`. -/
structure PlayerInfo where
  id : Nat
deriving DecidableEq, Repr

/-- `AllSpeeches`: per-round speech lists in `Object.entries` iteration
order (the keys are never read). -/
abbrev AllSpeeches := List (List Speech)

/-- `AllVotes`: per-round vote lists in iteration order. -/
abbrev AllVotes := List (List Vote)

/-- `AIMemoryEntry.type`. -/
inductive MemType where
  | speech_analysis
  | vote_pattern
  | role_deduction
  | strategy
  | contradiction
deriving DecidableEq, Repr

/-- `AIMemoryEntry.source`. -/
inductive MemSource where
  | observation
  | deduction
  | interaction
deriving DecidableEq, Repr

/-- `AIMemoryEntry` (the `id`/`timestamp` fields built from
`Date.now()`/`Math.random()` are nondeterministic and never read; omitted). -/
structure AIMemoryEntry where
  round : Int
  type : MemType
  playerId : Option Nat
  content : String
  confidence : ℚ
  relevance : ℚ
  source : MemSource
deriving DecidableEq, Repr

/-- `PlayerProfile`. -/
structure PlayerProfile where
  playerId : Nat
  suspectedRole : Option Role
  confidence : ℚ
  behaviors : List String
  contradictions : List String
  alliances : List Nat
  threats : List Nat
  lastUpdated : Int
deriving DecidableEq, Repr

/-- The private `gameContext` record of `AIMemorySystem`. -/
structure GameContext where
  myRole : Role
  myPlayerId : Nat
  teammates : List Nat
  currentRound : Int
  currentPhase : GamePhase
deriving DecidableEq, Repr

/-- The mutable state of one `AIMemorySystem` instance.  The `strategyMemories`
field of the source is declared but never written or read; omitted. -/
structure AIMemorySystem where
  memories : List AIMemoryEntry
  playerProfiles : List (Nat × PlayerProfile)
  gameContext : GameContext
deriving DecidableEq, Repr

/-- The `AIMemorySystem` constructor. -/
def mkAIMemorySystem (myRole : Role) (myPlayerId : Nat) (teammates : List Nat) :
    AIMemorySystem :=
  { memories := []
    playerProfiles := []
    gameContext :=
      { myRole := myRole, myPlayerId := myPlayerId, teammates := teammates
        currentRound := 1, currentPhase := GamePhase.day } }

/-- `updateGameContext(round, phase)`. -/
def updateGameContext (s : AIMemorySystem) (round : Int) (phase : GamePhase) :
    AIMemorySystem :=
  { s with gameContext := { s.gameContext with currentRound := round, currentPhase := phase } }

/-- The argument record of the private `addMemory` (round/id/timestamp are
filled in by `addMemory` itself). -/
structure MemParams where
  type : MemType
  playerId : Option Nat := none
  content : String
  confidence : ℚ
  relevance : ℚ
  source : MemSource
deriving Repr

/-- The entry `addMemory` builds from its params and the current round. -/
def mkMemoryEntry (s : AIMemorySystem) (p : MemParams) : AIMemoryEntry :=
  { round := s.gameContext.currentRound
    type := p.type
    playerId := p.playerId
    content := p.content
    confidence := p.confidence
    relevance := p.relevance
    source := p.source }

/-- The eviction sort key: `relevance * confidence`. -/
def memScore (m : AIMemoryEntry) : ℚ := qmul m.relevance m.confidence

/-- Private `addMemory`: append, then if the store holds more than 100
entries re-sort by `relevance * confidence` descending and keep the top 80. -/
def addMemory (s : AIMemorySystem) (p : MemParams) : AIMemorySystem :=
  let ms := s.memories ++ [mkMemoryEntry s p]
  let ms' := if ms.length > 100 then (sortByDesc memScore ms).take 80 else ms
  { s with memories := ms' }

/-- Result record of the private `extractSpeechInsights`. -/
structure SpeechInsights where
  summary : String
  confidence : ℚ
  keywords : List String
deriving Repr

/-- Private `extractSpeechInsights`: keyword-bucket scan of the lowercased
speech text; each matched bucket adds 0.1 to a confidence starting at 0.5,
capped at 1.0.  (The unused `allSpeeches` parameter of the source is kept.) -/
def extractSpeechInsights (speech : Speech) (allSpeeches : AllSpeeches) :
    SpeechInsights :=
  let content := jsToLower speech.content
  let b1 := strIncludes content "狼人" || strIncludes content "杀"
  let b2 := strIncludes content "预言家" || strIncludes content "查验"
  let b3 := strIncludes content "女巫" || strIncludes content "药"
  let b4 := strIncludes content "投票" || strIncludes content "出局"
  let b5 := strIncludes content "昨晚" || strIncludes content "夜里"
  let keywords :=
    (if b1 then ["狼人相关"] else []) ++ (if b2 then ["预言家相关"] else []) ++
    (if b3 then ["女巫相关"] else []) ++ (if b4 then ["投票相关"] else []) ++
    (if b5 then ["夜间信息"] else [])
  let confidence :=
    let c := mkRat 1 2
    let c := if b1 then qadd c (mkRat 1 10) else c
    let c := if b2 then qadd c (mkRat 1 10) else c
    let c := if b3 then qadd c (mkRat 1 10) else c
    let c := if b4 then qadd c (mkRat 1 10) else c
    if b5 then qadd c (mkRat 1 10) else c
  { summary := toString speech.playerId ++ "号: " ++
      (if keywords.length > 0 then String.intercalate ", " keywords else "一般发言")
    confidence := qmin confidence 1
    keywords := keywords }

/-- Private `calculateRelevance`: 0.5 base, scaled by 0.7 for teammates,
+0.3 if a core keyword was matched, capped at 1.0. -/
def calculateRelevance (s : AIMemorySystem) (playerId : Nat) (keywords : List String) : ℚ :=
  let r := mkRat 1 2
  let r := if s.gameContext.teammates.contains playerId then qmul r (mkRat 7 10) else r
  let r := if keywords.any (fun k =>
      strIncludes k "狼人" || strIncludes k "预言家" || strIncludes k "女巫") then
    qadd r (mkRat 3 10) else r
  qmin r 1

/-- Private `updatePlayerProfile`: lazily create the speaker's profile,
append one behavior tag when keywords matched, refresh `lastUpdated`.
(The unused `alivePlayers` parameter of the source is kept.) -/
def updatePlayerProfile (s : AIMemorySystem) (playerId : Nat)
    (analysis : SpeechInsights) (alivePlayers : List PlayerInfo) : AIMemorySystem :=
  let profile := (mapGet s.playerProfiles playerId).getD
    { playerId := playerId, suspectedRole := none, confidence := 0, behaviors := []
      contradictions := [], alliances := [], threats := []
      lastUpdated := s.gameContext.currentRound }
  let profile :=
    if analysis.keywords.length > 0 then
      { profile with behaviors := profile.behaviors ++
          ["第" ++ toString s.gameContext.currentRound ++ "轮: " ++
            String.intercalate ", " analysis.keywords] }
    else profile
  let profile := { profile with lastUpdated := s.gameContext.currentRound }
  { s with playerProfiles := mapSet s.playerProfiles playerId profile }

/-- Private `detectContradictions`: scan the speaker's prior speeches for a
directly contradicting role claim or a repeated inspection claim.  Note the
direction of the role-claim check in the source: the *current* text must
contain the affirmation (e.g. `我是预言家`) and the *past* text the denial. -/
def detectContradictions (playerId : Nat) (speech : Speech)
    (allSpeeches : AllSpeeches) : List String :=
  let currentContent := jsToLower speech.content
  let playerSpeeches :=
    (allSpeeches.map (fun rs => rs.filter (fun sp => sp.playerId == playerId))).flatten
  playerSpeeches.flatMap (fun pastSpeech =>
    if pastSpeech.content == speech.content then []
    else
      let pastContent := jsToLower pastSpeech.content
      (if strIncludes currentContent "我是预言家" && strIncludes pastContent "我不是预言家"
        then ["角色声明前后矛盾"] else []) ++
      (if strIncludes currentContent "我是女巫" && strIncludes pastContent "我不是女巫"
        then ["角色声明前后矛盾"] else []) ++
      (if strIncludes currentContent "查验" && strIncludes pastContent "查验"
        then ["查验结果可能矛盾"] else []))

/-- `analyzeSpeech` (the spec's `recordSpeech`): store a `speech_analysis`
entry, update the speaker's profile, and store one `contradiction` entry
(confidence 0.8, relevance 0.9) if any contradiction was detected. -/
def analyzeSpeech (s : AIMemorySystem) (speech : Speech) (allSpeeches : AllSpeeches)
    (alivePlayers : List PlayerInfo) : AIMemorySystem :=
  let playerId := speech.playerId
  let analysis := extractSpeechInsights speech allSpeeches
  let s1 := addMemory s
    { type := MemType.speech_analysis
      playerId := some playerId
      content := analysis.summary
      confidence := analysis.confidence
      relevance := calculateRelevance s playerId analysis.keywords
      source := MemSource.observation }
  let s2 := updatePlayerProfile s1 playerId analysis alivePlayers
  let contradictions := detectContradictions playerId speech allSpeeches
  if contradictions.length > 0 then
    addMemory s2
      { type := MemType.contradiction
        playerId := some playerId
        content := "检测到矛盾: " ++ String.intercalate "; " contradictions
        confidence := mkRat 8 10
        relevance := mkRat 9 10
        source := MemSource.deduction }
  else s2

/-- One detected voting pattern. -/
structure VotingPattern where
  playerId : Nat
  description : String
  confidence : ℚ
deriving Repr

/-- Private `detectFollowerBehavior`: a vote counts as "following" when it
sits in the back half of the vote order of the round that contains it; the
flag is set when more than 60% of the player's votes follow.  (JS compares
the integer index with `length / 2` and the integer count with
`length * 0.6`; on these magnitudes float and rational comparison agree.) -/
def detectFollowerBehavior (playerVotes : List Vote) (allVotes : AllVotes) : Bool :=
  let followCount := (playerVotes.filter (fun vote =>
    match allVotes.find? (fun roundVotes =>
        roundVotes.any (fun v => v.voterId == vote.voterId && v.targetId == vote.targetId)) with
    | none => false
    | some roundVotes =>
        match roundVotes.findIdx? (fun v => v.voterId == vote.voterId) with
        | none => false
        | some voteIndex => qhalf (qofNat roundVotes.length) < qofNat voteIndex)).length
  qmul (qofNat playerVotes.length) (mkRat 6 10) < qofNat followCount

/-- Private `extractVotingPatterns`: group all votes by voter (insertion
order), and for each voter with at least 2 votes emit a "follower" pattern
(confidence 0.6) and/or a "scatter" pattern (confidence 0.5, all targets
distinct).  (The unused `votes` parameter of the source is kept.) -/
def extractVotingPatterns (votes : List Vote) (allVotes : AllVotes) :
    List VotingPattern :=
  let playerVotes : List (Nat × List Vote) :=
    allVotes.flatten.foldl (fun m v =>
      let m := if mapHas m v.voterId then m else mapSet m v.voterId []
      mapSet m v.voterId (((mapGet m v.voterId).getD []) ++ [v])) []
  playerVotes.flatMap (fun pv =>
    if pv.2.length < 2 then []
    else
      (if detectFollowerBehavior pv.2 allVotes then
        [{ playerId := pv.1, description := "经常跟票，可能是狼人或保守村民"
           confidence := mkRat 6 10 }]
      else []) ++
      (if (pv.2.map (fun v => v.targetId)).eraseDups.length == pv.2.length then
        [{ playerId := pv.1, description := "投票分散，可能在搅局"
           confidence := mkRat 1 2 }]
      else []))

/-- `analyzeVotingPattern`: one `vote_pattern` entry (relevance 0.8) per
detected pattern. -/
def analyzeVotingPattern (s : AIMemorySystem) (votes : List Vote)
    (allVotes : AllVotes) (alivePlayers : List PlayerInfo) : AIMemorySystem :=
  (extractVotingPatterns votes allVotes).foldl (fun s pattern =>
    addMemory s
      { type := MemType.vote_pattern
        playerId := some pattern.playerId
        content := pattern.description
        confidence := pattern.confidence
        relevance := mkRat 8 10
        source := MemSource.observation }) s

/-- The per-player speech history: the concatenation, in iteration order,
of each round's speeches filtered to the given speaker. -/
def playerSpeechesOf (playerId : Nat) (allSpeeches : AllSpeeches) : List Speech :=
  (allSpeeches.map (fun rs => rs.filter (fun sp => sp.playerId == playerId))).flatten

/-- One speech's contribution to the four role scores of
`analyzePlayerRole` (order: wolf, seer, witch, villager). -/
def roleScoreStep (acc : ℚ × ℚ × ℚ × ℚ) (speech : Speech) : ℚ × ℚ × ℚ × ℚ :=
  let content := jsToLower speech.content
  let seerScore := if strIncludes content "预言家" || strIncludes content "查验" then
    qadd acc.2.1 (mkRat 2 10) else acc.2.1
  let witchScore := if strIncludes content "女巫" || strIncludes content "药" then
    qadd acc.2.2.1 (mkRat 2 10) else acc.2.2.1
  let villagerScore := if strIncludes content "我是村民" || strIncludes content "好人" then
    qadd acc.2.2.2 (mkRat 1 10) else acc.2.2.2
  let werewolfScore := if strIncludes content "不确定" || strIncludes content "可能" then
    qadd acc.1 (mkRat 1 10) else acc.1
  (werewolfScore, seerScore, witchScore, villagerScore)

/-- Rendering of a `Role` enum value (string values of the TS enum; only
used inside free-text memory contents, which no claim inspects). -/
def roleName : Role → String
  | Role.werewolf => "werewolf"
  | Role.seer => "seer"
  | Role.witch => "witch"
  | Role.villager => "villager"

/-- Private `analyzePlayerRole`: accumulate four keyword scores over the
player's speech history, add 0.3 to the wolf score when the player's profile
already records more than one contradiction, pick the best role (ties by the
fixed array order wolf > seer > witch > villager, via the stable sort), and
cap the returned confidence at 0.8. -/
def analyzePlayerRole (s : AIMemorySystem) (playerId : Nat)
    (allSpeeches : AllSpeeches) (allVotes : AllVotes) : Role × ℚ :=
  let scores := (playerSpeechesOf playerId allSpeeches).foldl roleScoreStep (0, 0, 0, 0)
  let werewolfScore :=
    match mapGet s.playerProfiles playerId with
    | some profile => if profile.contradictions.length > 1 then
        qadd scores.1 (mkRat 3 10) else scores.1
    | none => scores.1
  let scoreList : List (Role × ℚ) :=
    [(Role.werewolf, werewolfScore), (Role.seer, scores.2.1),
     (Role.witch, scores.2.2.1), (Role.villager, scores.2.2.2)]
  let bestGuess := (sortByDesc (fun rs => rs.2) scoreList).headD (Role.werewolf, 0)
  (bestGuess.1, qmin bestGuess.2 (mkRat 8 10))

/-- One step of `deduceRoles`: for a living player other than self, run
`analyzePlayerRole`; when its confidence exceeds 0.3 record a
`role_deduction` entry (relevance 0.9) and add the player to the returned
map. -/
def deduceRolesStep (allSpeeches : AllSpeeches) (allVotes : AllVotes)
    (acc : AIMemorySystem × List (Nat × Role × ℚ)) (player : PlayerInfo) :
    AIMemorySystem × List (Nat × Role × ℚ) :=
  if player.id == acc.1.gameContext.myPlayerId then acc
  else
    let deduction := analyzePlayerRole acc.1 player.id allSpeeches allVotes
    if deduction.2 > mkRat 3 10 then
      (addMemory acc.1
        { type := MemType.role_deduction
          playerId := some player.id
          content := "推断角色: " ++ roleName deduction.1 ++
            " (置信度: " ++ toString deduction.2.num ++ "/" ++ toString deduction.2.den ++ ")"
          confidence := deduction.2
          relevance := mkRat 9 10
          source := MemSource.deduction },
       acc.2 ++ [(player.id, deduction)])
    else acc

/-- `deduceRoles`: fold `deduceRolesStep` over the living players.
Returns the new state together with the deduction map. -/
def deduceRoles (s : AIMemorySystem) (alivePlayers : List PlayerInfo)
    (allSpeeches : AllSpeeches) (allVotes : AllVotes) :
    AIMemorySystem × List (Nat × Role × ℚ) :=
  alivePlayers.foldl (deduceRolesStep allSpeeches allVotes) (s, [])

/-- Result record of `generateStrategy`. -/
structure StrategyResult where
  primaryStrategy : String
  reasoning : String
  targetPlayers : List Nat
  riskLevel : String
deriving Repr

/-- Private `generateWerewolfStrategy`. -/
def generateWerewolfStrategy (players : List (Nat × PlayerProfile)) : StrategyResult :=
  { primaryStrategy := "伪装村民，寻找神职目标"
    reasoning := "作为狼人需要隐藏身份并消除威胁"
    targetPlayers := ((players.map (fun p => p.1)).filter (fun id =>
      match mapGet players id with
      | some p => p.suspectedRole == some Role.seer || p.suspectedRole == some Role.witch
      | none => false)).take 2
    riskLevel := "medium" }

/-- Private `generateSeerStrategy`. -/
def generateSeerStrategy (players : List (Nat × PlayerProfile)) : StrategyResult :=
  { primaryStrategy := "适时公布查验结果，引导投票"
    reasoning := "作为预言家需要在保护自己的同时传达信息"
    targetPlayers := ((players.map (fun p => p.1)).filter (fun id =>
      match mapGet players id with
      | some p => p.suspectedRole == some Role.werewolf
      | none => false)).take 2
    riskLevel := "high" }

/-- Private `generateWitchStrategy`. -/
def generateWitchStrategy (players : List (Nat × PlayerProfile)) : StrategyResult :=
  { primaryStrategy := "隐藏身份，关键时刻使用药水"
    reasoning := "作为女巫需要在合适时机使用能力"
    targetPlayers := []
    riskLevel := "low" }

/-- Private `generateVillagerStrategy`. -/
def generateVillagerStrategy (players : List (Nat × PlayerProfile)) : StrategyResult :=
  { primaryStrategy := "分析发言，寻找逻辑漏洞"
    reasoning := "作为村民需要通过逻辑分析找出狼人"
    targetPlayers := ((players.map (fun p => p.1)).filter (fun id =>
      match mapGet players id with
      | some p => p.contradictions.length > 1
      | none => false)).take 2
    riskLevel := "low" }

/-- Private `getRelevantMemories`: memories at most 3 rounds old with
relevance > 0.5 and confidence > 0.4, sorted by score descending.  (Passed
to the strategy generators, which ignore it.) -/
def getRelevantMemories (s : AIMemorySystem) (phase : GamePhase) : List AIMemoryEntry :=
  sortByDesc memScore (s.memories.filter (fun m =>
    !(s.gameContext.currentRound - m.round > 3) &&
      (mkRat 1 2 < m.relevance && mkRat 4 10 < m.confidence)))

/-- The context argument of `generateStrategy`. -/
structure StrategyContext where
  currentPhase : GamePhase
  alivePlayers : List PlayerInfo
  allSpeeches : AllSpeeches
  allVotes : AllVotes
deriving Repr

/-- `generateStrategy`: dispatch on own role, then always store one
`strategy` entry (confidence 0.7, relevance 1.0). -/
def generateStrategy (s : AIMemorySystem) (context : StrategyContext) :
    AIMemorySystem × StrategyResult :=
  let relevantMemories := getRelevantMemories s context.currentPhase
  let strategy :=
    if s.gameContext.myRole == Role.werewolf then generateWerewolfStrategy s.playerProfiles
    else if s.gameContext.myRole == Role.seer then generateSeerStrategy s.playerProfiles
    else if s.gameContext.myRole == Role.witch then generateWitchStrategy s.playerProfiles
    else generateVillagerStrategy s.playerProfiles
  (addMemory s
    { type := MemType.strategy
      playerId := none
      content := "策略: " ++ strategy.primaryStrategy ++ " | 理由: " ++ strategy.reasoning
      confidence := mkRat 7 10
      relevance := 1
      source := MemSource.deduction }, strategy)

/-- `getMemorySummary(maxEntries = 10)`: filter to relevance > 0.6 and
confidence > 0.5, sort by `relevance * confidence` descending, take the top
`maxEntries`, render; sentinel text when nothing qualifies.  The source
method does not mutate the store (filter copies; sort acts on the copy), so
it is a pure function of the state. -/
def getMemorySummary (s : AIMemorySystem) (maxEntries : Nat := 10) : String :=
  let importantMemories :=
    (sortByDesc memScore (s.memories.filter (fun m =>
      mkRat 6 10 < m.relevance && mkRat 1 2 < m.confidence))).take maxEntries
  if importantMemories.length == 0 then "暂无重要记忆信息。"
  else
    "重要记忆信息:\n" ++ String.intercalate "\n" (importantMemories.map (fun memory =>
      "第" ++ toString memory.round ++ "轮: " ++ memory.content ++
        " (置信度: " ++ toString (jsRound (qmul memory.confidence (mkRat 100 1))) ++ "%)"))

/-- The `getMemorySummary` method as a state-transformer call: it returns
its string and leaves the state untouched. -/
def getMemorySummaryCall (s : AIMemorySystem) (maxEntries : Nat := 10) :
    String × AIMemorySystem :=
  (getMemorySummary s maxEntries, s)

/-- One entry of the threat assessment. -/
structure ThreatEntry where
  playerId : Nat
  threatLevel : ℚ
  reason : String
deriving Repr

/-- One profile's contribution to `getThreatAssessment`: sum +0.8
(suspected wolf while self is not wolf), +0.3 (more than 2 recorded
contradictions), +0.2 (a `vote_pattern` entry for the player containing
the suspicion marker), cap at 1.0, keep only totals above 0.3. -/
def threatOf (s : AIMemorySystem) (pp : Nat × PlayerProfile) : List ThreatEntry :=
  if pp.1 == s.gameContext.myPlayerId then []
  else
    let profile := pp.2
    let acc : ℚ × List String := (0, [])
    let acc := if profile.suspectedRole == some Role.werewolf &&
        !(s.gameContext.myRole == Role.werewolf) then
      (qadd acc.1 (mkRat 8 10), acc.2 ++ ["疑似狼人"]) else acc
    let acc := if profile.contradictions.length > 2 then
      (qadd acc.1 (mkRat 3 10), acc.2 ++ ["发言矛盾"]) else acc
    let votingMemories := s.memories.filter (fun m =>
      m.type == MemType.vote_pattern && m.playerId == some pp.1)
    let acc := if votingMemories.any (fun m => strIncludes m.content "可疑") then
      (qadd acc.1 (mkRat 2 10), acc.2 ++ ["投票行为可疑"]) else acc
    if acc.1 > mkRat 3 10 then
      [{ playerId := pp.1, threatLevel := qmin acc.1 1
         reason := String.intercalate ", " acc.2 }]
    else []

/-- `getThreatAssessment`: the per-profile threat entries, sorted by
threat level descending. -/
def getThreatAssessment (s : AIMemorySystem) : List ThreatEntry :=
  sortByDesc (fun t => t.threatLevel) (s.playerProfiles.flatMap (threatOf s))

/-- `WerewolfMessage.type`. -/
inductive MsgType where
  | strategy
  | target_suggestion
  | information
  | coordination
deriving DecidableEq, Repr

/-- Message priority / urgency level. -/
inductive Urgency where
  | low
  | medium
  | high
deriving DecidableEq, Repr

/-- `WerewolfMessage` (`id`/`timestamp` from `Date.now()`/`Math.random()`
are nondeterministic and never read by the logic; omitted). -/
structure WerewolfMessage where
  senderId : Nat
  content : String
  round : Int
  type : MsgType
deriving DecidableEq, Repr

/-- `WerewolfTeamDecision`.  `finalDecisionMaker` is `aliveWerewolves[0]`,
which is JS `undefined` when that list is empty; hence an `Option`. -/
structure WerewolfTeamDecision where
  targetPlayerId : Nat
  reason : String
  consensus : Bool
  participatingMembers : List Nat
  finalDecisionMaker : Option Nat
deriving DecidableEq, Repr

/-- `WerewolfCommunicationContext`. -/
structure WerewolfCommunicationContext where
  round : Int
  alivePlayers : List PlayerInfo
  werewolfTeam : List Nat
  aliveWerewolves : List Nat
  targetCandidates : List Nat
  gameAnalysis : String
  urgencyLevel : Urgency
deriving Repr

/-- The mutable state of one `WerewolfCommunicationSystem` instance. -/
structure WerewolfCommunicationSystem where
  messages : List WerewolfMessage
  teamDecisions : List WerewolfTeamDecision
  communicationHistory : List (Int × List WerewolfMessage)
deriving DecidableEq, Repr

/-- The `WerewolfCommunicationSystem` constructor. -/
def mkCommSystem : WerewolfCommunicationSystem :=
  { messages := [], teamDecisions := [], communicationHistory := [] }

/-- Private `addMessage`: append to the flat log and to the per-round
history bucket (created on demand). -/
def addMessage (s : WerewolfCommunicationSystem) (senderId : Nat) (content : String)
    (round : Int) (type : MsgType) : WerewolfCommunicationSystem :=
  let message : WerewolfMessage :=
    { senderId := senderId, content := content, round := round, type := type }
  let history :=
    if mapHas s.communicationHistory round then s.communicationHistory
    else mapSet s.communicationHistory round []
  { s with
      messages := s.messages ++ [message]
      communicationHistory :=
        mapSet history round (((mapGet history round).getD []) ++ [message]) }

/-- `cleanup(currentRound)`: keep only messages with
`currentRound - round <= 3`, and drop history buckets with
`currentRound - round > 3`. -/
def cleanup (s : WerewolfCommunicationSystem) (currentRound : Int) :
    WerewolfCommunicationSystem :=
  { s with
      messages := s.messages.filter (fun msg => currentRound - msg.round ≤ 3)
      communicationHistory :=
        s.communicationHistory.filter (fun rb => !(currentRound - rb.1 > 3)) }

/-- Result record of `analyzeGameSituation`. -/
structure GameAnalysis where
  threatLevel : Urgency
  suspiciousPlayers : List Nat
  godRoleCandidates : List Nat
  safePlayers : List Nat
  urgentActions : List String
deriving Repr

/-- Inner loop of the suspicion check in `analyzeGameSituation`: for each
teammate whose id appears in the speech text, raise the threat level to high
and record an urgent action. -/
def suspicionStep (content : String) (speakerId : Nat) (a : GameAnalysis)
    (werewolfId : Nat) : GameAnalysis :=
  if strIncludes content (toString werewolfId) then
    { a with threatLevel := Urgency.high
             urgentActions := a.urgentActions ++
               [toString speakerId ++ "号怀疑" ++ toString werewolfId ++ "号是狼人"] }
  else a

/-- The seer-marker test of `analyzeGameSituation` on a lowercased text. -/
def seerMarker (content : String) : Bool :=
  strIncludes content "预言家" || strIncludes content "查验" ||
    strIncludes content "昨晚我查了"

/-- The witch-marker test of `analyzeGameSituation` on a lowercased text. -/
def witchMarker (content : String) : Bool :=
  strIncludes content "女巫" || strIncludes content "药水" ||
    strIncludes content "救人" || strIncludes content "毒死"

/-- The dedup-append of a speaker to the god-role candidate list, guarded
by a marker test (the shared shape of the seer and witch checks). -/
def godCandidateStep (pid : Nat) (b : Bool) (a : GameAnalysis) : GameAnalysis :=
  if b then
    if a.godRoleCandidates.contains pid then a
    else { a with godRoleCandidates := a.godRoleCandidates ++ [pid] }
  else a

/-- Processing of one speech inside `analyzeGameSituation`: detect seer and
witch markers (dedup-appending to the god-role candidates) and suspicion of
a teammate (raising the threat level to high). -/
def situationStep (context : WerewolfCommunicationContext) (a : GameAnalysis)
    (speech : Speech) : GameAnalysis :=
  if context.werewolfTeam.contains speech.playerId then a
  else
    let content := jsToLower speech.content
    let a := godCandidateStep speech.playerId (seerMarker content) a
    let a := godCandidateStep speech.playerId (witchMarker content) a
    if strIncludes content "狼人" && (strIncludes content "认为" || strIncludes content "怀疑") then
      context.werewolfTeam.foldl (suspicionStep content speech.playerId) a
    else a

/-- Processing of one vote inside `analyzeGameSituation`: a voter targeting
a teammate is dedup-appended to the suspicious players. -/
def suspicionVoteStep (context : WerewolfCommunicationContext) (a : GameAnalysis)
    (vote : Vote) : GameAnalysis :=
  if context.werewolfTeam.contains vote.targetId then
    if a.suspiciousPlayers.contains vote.voterId then a
    else { a with suspiciousPlayers := a.suspiciousPlayers ++ [vote.voterId] }
  else a

/-- Processing of one roster entry inside `analyzeGameSituation`: alive
non-teammates that are neither god-role candidates nor suspicious are safe. -/
def safeStep (context : WerewolfCommunicationContext) (a : GameAnalysis)
    (player : PlayerInfo) : GameAnalysis :=
  if context.werewolfTeam.contains player.id then a
  else if !(a.godRoleCandidates.contains player.id) &&
      !(a.suspiciousPlayers.contains player.id) then
    { a with safePlayers := a.safePlayers ++ [player.id] }
  else a

/-- Private `analyzeGameSituation`. -/
def analyzeGameSituation (context : WerewolfCommunicationContext)
    (allSpeeches : AllSpeeches) (allVotes : AllVotes) : GameAnalysis :=
  let a : GameAnalysis :=
    { threatLevel := Urgency.medium, suspiciousPlayers := [], godRoleCandidates := []
      safePlayers := [], urgentActions := [] }
  let a := allSpeeches.foldl (fun a speeches =>
    speeches.foldl (situationStep context) a) a
  let a := allVotes.foldl (fun a votes =>
    votes.foldl (suspicionVoteStep context) a) a
  context.alivePlayers.foldl (safeStep context) a

/-- Result record of `generateWerewolfCommunication`. -/
structure CommunicationResult where
  messageType : MsgType
  content : String
  priority : Urgency
  suggestedTarget : Option Nat
  reasoning : String
deriving DecidableEq, Repr

/-- Private `generateCommunicationContent`: priority chain god-role target >
high-threat coordination > safe target > generic strategy. -/
def generateCommunicationContent (gameAnalysis : GameAnalysis) : CommunicationResult :=
  match gameAnalysis.godRoleCandidates with
  | target :: _ =>
      { messageType := MsgType.target_suggestion
        content := "建议优先击杀" ++ toString target ++ "号，疑似神职角色"
        priority := Urgency.high
        suggestedTarget := some target
        reasoning := "消除神职角色威胁" }
  | [] =>
    if gameAnalysis.threatLevel == Urgency.high then
      { messageType := MsgType.coordination
        content := "我们被怀疑了，需要更好地伪装和配合"
        priority := Urgency.high
        suggestedTarget := none
        reasoning := "应对高威胁局势" }
    else
      match gameAnalysis.safePlayers with
      | target :: _ =>
          { messageType := MsgType.target_suggestion
            content := toString target ++ "号相对安全，建议作为击杀目标"
            priority := Urgency.medium
            suggestedTarget := some target
            reasoning := "选择风险较低的目标" }
      | [] =>
          { messageType := MsgType.strategy
            content := "需要仔细分析局势，寻找最佳击杀时机"
            priority := Urgency.low
            suggestedTarget := none
            reasoning := "常规策略讨论" }

/-- `generateWerewolfCommunication` (the spec's `generateCommunication`):
analyze, build the message, log it, and return it with the new state. -/
def generateWerewolfCommunication (s : WerewolfCommunicationSystem) (senderId : Nat)
    (context : WerewolfCommunicationContext) (allSpeeches : AllSpeeches)
    (allVotes : AllVotes) : CommunicationResult × WerewolfCommunicationSystem :=
  let gameAnalysis := analyzeGameSituation context allSpeeches allVotes
  let communication := generateCommunicationContent gameAnalysis
  (communication,
   addMessage s senderId communication.content context.round communication.messageType)

/-- One member suggestion for `negotiateKillTarget`. -/
structure TargetSuggestion where
  memberId : Nat
  suggestedTarget : Nat
  reason : String
  priority : ℚ
deriving Repr

/-- Aggregated data per suggested target. -/
structure TargetData where
  votes : Nat
  totalPriority : ℚ
  reasons : List String
  riskLevel : ℚ
deriving DecidableEq, Repr

/-- Private `analyzeTargetSuggestions`: group by target (insertion order),
counting votes/priorities/reasons, then assign each target a risk level
(0.3 god-role marker, 0.8 suspicion marker, else 0.5). -/
def analyzeTargetSuggestions (suggestions : List TargetSuggestion) :
    List (Nat × TargetData) :=
  let analysis := suggestions.foldl (fun (m : List (Nat × TargetData)) suggestion =>
    let target := suggestion.suggestedTarget
    let m := if mapHas m target then m
      else mapSet m target { votes := 0, totalPriority := 0, reasons := [], riskLevel := 0 }
    let d := (mapGet m target).getD { votes := 0, totalPriority := 0, reasons := [], riskLevel := 0 }
    mapSet m target
      { d with votes := d.votes + 1
               totalPriority := qadd d.totalPriority suggestion.priority
               reasons := d.reasons ++ [suggestion.reason] }) []
  analysis.map (fun td =>
    let riskLevel :=
      if td.2.reasons.any (fun r =>
          strIncludes r "神职" || strIncludes r "预言家" || strIncludes r "女巫") then
        mkRat 3 10
      else if td.2.reasons.any (fun r => strIncludes r "怀疑" || strIncludes r "威胁") then
        mkRat 8 10
      else mkRat 1 2
    (td.1, { td.2 with riskLevel := riskLevel }))

/-- The weighted score `votes * 0.4 + totalPriority * 0.4 + (1 - risk) * 0.2`. -/
def targetScore (d : TargetData) : ℚ :=
  qadd (qadd (qmul (qofNat d.votes) (mkRat 4 10)) (qmul d.totalPriority (mkRat 4 10)))
    (qmul (qsub 1 d.riskLevel) (mkRat 2 10))

/-- The `bestTarget` selection loop of `makeTeamDecision`: strictly higher
score wins, ties keep the first target in iteration order; `none` when no
entry scores above the initial `-1`. -/
def bestTargetOf (targetAnalysis : List (Nat × TargetData)) : Option Nat :=
  (targetAnalysis.foldl (fun (acc : Option Nat × ℚ) td =>
    if targetScore td.2 > acc.2 then (some td.1, targetScore td.2) else acc)
    (none, -1)).1

/-- Private `makeTeamDecision`.  JS truthiness is modelled explicitly: a
candidate with id 0 is falsy, and `context.alivePlayers[0].id` on an empty
roster throws a `TypeError`, modelled as `none`. -/
def makeTeamDecision (targetAnalysis : List (Nat × TargetData))
    (context : WerewolfCommunicationContext) : Option WerewolfTeamDecision :=
  let bestTarget := bestTargetOf targetAnalysis
  let bestTargetFalsy := match bestTarget with
    | none => true
    | some t => t == 0
  let bestTarget :=
    if bestTargetFalsy && context.targetCandidates.length > 0 then
      some (context.targetCandidates.headD 0)
    else bestTarget
  let targetData := match bestTarget with
    | some t => if t == 0 then none else mapGet targetAnalysis t
    | none => none
  let consensus := match targetData with
    | some d => decide (qofNat d.votes > qhalf (qofNat context.aliveWerewolves.length))
    | none => false
  let targetPlayerId? : Option Nat :=
    (match bestTarget with
      | some t => if t == 0 then none else some t
      | none => none).orElse (fun _ =>
    (context.targetCandidates.head?.bind (fun c => if c == 0 then none else some c)).orElse
      (fun _ => (context.alivePlayers.head?).map (fun (p : PlayerInfo) => p.id)))
  targetPlayerId?.map (fun targetPlayerId =>
    { targetPlayerId := targetPlayerId
      reason := match targetData with
        | some d => String.intercalate "; " d.reasons
        | none => "默认选择"
      consensus := consensus
      participatingMembers := context.aliveWerewolves
      finalDecisionMaker := context.aliveWerewolves.head? })

/-- `negotiateKillTarget` (the spec's `negotiateTarget`): aggregate the
suggestions, make the decision, store it.  `none` means the source threw. -/
def negotiateKillTarget (s : WerewolfCommunicationSystem)
    (context : WerewolfCommunicationContext) (memberSuggestions : List TargetSuggestion) :
    Option (WerewolfTeamDecision × WerewolfCommunicationSystem) :=
  match makeTeamDecision (analyzeTargetSuggestions memberSuggestions) context with
  | none => none
  | some decision => some (decision, { s with teamDecisions := s.teamDecisions ++ [decision] })

/-- The reachable states of one `AIMemorySystem` instance: a constructor
call followed by any sequence of the public mutating operations. -/
inductive Reach : AIMemorySystem → Prop where
  | init (role : Role) (pid : Nat) (tm : List Nat) : Reach (mkAIMemorySystem role pid tm)
  | updateCtx {s : AIMemorySystem} (r : Int) (ph : GamePhase) :
      Reach s → Reach (updateGameContext s r ph)
  | speech {s : AIMemorySystem} (sp : Speech) (sps : AllSpeeches) (ap : List PlayerInfo) :
      Reach s → Reach (analyzeSpeech s sp sps ap)
  | votes {s : AIMemorySystem} (v : List Vote) (av : AllVotes) (ap : List PlayerInfo) :
      Reach s → Reach (analyzeVotingPattern s v av ap)
  | roles {s : AIMemorySystem} (ap : List PlayerInfo) (sps : AllSpeeches) (av : AllVotes) :
      Reach s → Reach ((deduceRoles s ap sps av).1)
  | strat {s : AIMemorySystem} (c : StrategyContext) :
      Reach s → Reach ((generateStrategy s c).1)

/-- Spec-side predicate for C7: a speech by a non-allied player whose
lowercased text contains a god-role marker (a seer or witch keyword). -/
def isGodMarkerSpeech (team : List Nat) (sp : Speech) : Bool :=
  !team.contains sp.playerId &&
    (seerMarker (jsToLower sp.content) || witchMarker (jsToLower sp.content))

/-- Spec-side: the id of the first speaker (in iteration order over the
whole speech history) of a non-ally god-marker speech. -/
def firstGodCandidate (team : List Nat) (allSpeeches : AllSpeeches) : Option Nat :=
  (allSpeeches.flatten.find? (isGodMarkerSpeech team)).map (fun sp => sp.playerId)

/-- Spec-side predicate for C7's second hypothesis: a speech stating
suspicion of an allied player (wolf keyword, a suspicion verb, and a
teammate id in the text). -/
def speechSuspectsAlly (team : List Nat) (sp : Speech) : Bool :=
  let content := jsToLower sp.content
  strIncludes content "狼人" &&
    (strIncludes content "认为" || strIncludes content "怀疑") &&
    team.any (fun w => strIncludes content (toString w))

/-- Modelled from the spec for C10: one profile's threat contribution with
the "contradiction count > 2" component removed — the component C10 claims
is never applied. -/
def threatOfNoContra (s : AIMemorySystem) (pp : Nat × PlayerProfile) : List ThreatEntry :=
  if pp.1 == s.gameContext.myPlayerId then []
  else
    let profile := pp.2
    let acc : ℚ × List String := (0, [])
    let acc := if profile.suspectedRole == some Role.werewolf &&
        !(s.gameContext.myRole == Role.werewolf) then
      (qadd acc.1 (mkRat 8 10), acc.2 ++ ["疑似狼人"]) else acc
    let votingMemories := s.memories.filter (fun m =>
      m.type == MemType.vote_pattern && m.playerId == some pp.1)
    let acc := if votingMemories.any (fun m => strIncludes m.content "可疑") then
      (qadd acc.1 (mkRat 2 10), acc.2 ++ ["投票行为可疑"]) else acc
    if acc.1 > mkRat 3 10 then
      [{ playerId := pp.1, threatLevel := qmin acc.1 1
         reason := String.intercalate ", " acc.2 }]
    else []

/-- Modelled from the spec for C10: `getThreatAssessment` with the
contradiction component removed. -/
def getThreatAssessmentNoContradictionTerm (s : AIMemorySystem) : List ThreatEntry :=
  sortByDesc (fun t => t.threatLevel) (s.playerProfiles.flatMap (threatOfNoContra s))

/-- Modelled from the spec for C10: `analyzePlayerRole` with the
"contradiction count > 1" wolf-score boost removed — the boost C10 claims
is never applied. -/
def analyzePlayerRoleNoContradictionBoost (s : AIMemorySystem) (playerId : Nat)
    (allSpeeches : AllSpeeches) (allVotes : AllVotes) : Role × ℚ :=
  let scores := (playerSpeechesOf playerId allSpeeches).foldl roleScoreStep (0, 0, 0, 0)
  let scoreList : List (Role × ℚ) :=
    [(Role.werewolf, scores.1), (Role.seer, scores.2.1),
     (Role.witch, scores.2.2.1), (Role.villager, scores.2.2.2)]
  let bestGuess := (sortByDesc (fun rs => rs.2) scoreList).headD (Role.werewolf, 0)
  (bestGuess.1, qmin bestGuess.2 (mkRat 8 10))

/-- `insertMemories`: a whole sequence of insertion calls. -/
def insertMemories (s : AIMemorySystem) (ps : List MemParams) : AIMemorySystem :=
  ps.foldl addMemory s

/-- Fixture: a villager-agent memory system observing player 1. -/
def sysV : AIMemorySystem := mkAIMemorySystem Role.villager 2 []

/-- Fixture: player 1 claims to be the seer. -/
def spA : Speech := { playerId := 1, content := "我是预言家" }

/-- Fixture: player 1 denies being the seer. -/
def spB : Speech := { playerId := 1, content := "我不是预言家" }

/-- Fixture: a memory entry with mid-range scores. -/
def entryW : AIMemoryEntry :=
  { round := 1, type := MemType.strategy, playerId := none, content := "e"
    confidence := mkRat 7 10, relevance := 1, source := MemSource.deduction }

/-- Fixture: a store filled to exactly 100 entries. -/
def sys100 : AIMemorySystem :=
  { memories := List.replicate 100 entryW
    playerProfiles := []
    gameContext :=
      { myRole := Role.villager, myPlayerId := 2, teammates := []
        currentRound := 1, currentPhase := GamePhase.day } }

/-- Fixture: one more insertion for the full store. -/
def pW : MemParams :=
  { type := MemType.strategy, playerId := none, content := "p"
    confidence := mkRat 1 2, relevance := mkRat 1 2, source := MemSource.deduction }

/-- Fixture context: 4 alive werewolves among 8 players (claim C5). -/
def ctx5 : WerewolfCommunicationContext :=
  { round := 1, alivePlayers := [⟨1⟩, ⟨2⟩, ⟨3⟩, ⟨4⟩, ⟨5⟩, ⟨6⟩, ⟨7⟩, ⟨8⟩]
    werewolfTeam := [1, 4, 6, 8], aliveWerewolves := [1, 4, 6, 8]
    targetCandidates := [2, 3, 5, 7], gameAnalysis := "", urgencyLevel := Urgency.medium }

/-- Fixture suggestions: three for target 2 (priority 5), one for target 3
(priority 1). -/
def suggs5 : List TargetSuggestion :=
  [{ memberId := 1, suggestedTarget := 2, reason := "r1", priority := 5 },
   { memberId := 4, suggestedTarget := 2, reason := "r2", priority := 5 },
   { memberId := 6, suggestedTarget := 2, reason := "r3", priority := 5 },
   { memberId := 8, suggestedTarget := 3, reason := "r4", priority := 1 }]

/-- The aggregated data `analyzeTargetSuggestions suggs5` holds for target 2. -/
def dataP2 : TargetData :=
  { votes := 3, totalPriority := qadd (qadd (qadd 0 5) 5) 5
    reasons := ["r1", "r2", "r3"], riskLevel := mkRat 1 2 }

/-- Fixture context for the consensus counterexample: two alive werewolves,
no fallback candidates, a player with id 0 on the roster. -/
def ctx0 : WerewolfCommunicationContext :=
  { round := 1, alivePlayers := [⟨0⟩, ⟨1⟩, ⟨2⟩]
    werewolfTeam := [1, 2], aliveWerewolves := [1, 2]
    targetCandidates := [], gameAnalysis := "", urgencyLevel := Urgency.medium }

/-- Fixture suggestions: both alive werewolves suggest the player with id 0. -/
def suggs0 : List TargetSuggestion :=
  [{ memberId := 1, suggestedTarget := 0, reason := "r1", priority := 1 },
   { memberId := 2, suggestedTarget := 0, reason := "r2", priority := 1 }]

/-- Fixture context with candidates `[5, 7]` (claim C6). -/
def ctx6 : WerewolfCommunicationContext :=
  { round := 1, alivePlayers := [⟨5⟩, ⟨7⟩, ⟨9⟩]
    werewolfTeam := [9], aliveWerewolves := [9]
    targetCandidates := [5, 7], gameAnalysis := "", urgencyLevel := Urgency.low }

/-- Fixture context with every list empty (claim C4). -/
def ctxE : WerewolfCommunicationContext :=
  { round := 1, alivePlayers := [], werewolfTeam := [], aliveWerewolves := []
    targetCandidates := [], gameAnalysis := "", urgencyLevel := Urgency.low }

/-- Fixture context for the god-role communication claim (claim C7). -/
def ctx7 : WerewolfCommunicationContext :=
  { round := 2, alivePlayers := [⟨1⟩, ⟨2⟩, ⟨3⟩]
    werewolfTeam := [3], aliveWerewolves := [3]
    targetCandidates := [1, 2], gameAnalysis := "", urgencyLevel := Urgency.medium }

/-- Fixture speech history: player 1 self-reveals as the seer. -/
def speeches7 : AllSpeeches :=
  [[{ playerId := 1, content := "我是预言家，昨晚我查了2号" }]]

/-- Fixture message at a given round. -/
def msgR (r : Int) : WerewolfMessage :=
  { senderId := 1, content := "m", round := r, type := MsgType.strategy }

/-- Fixture communication log holding rounds 5..10 and a future round 14. -/
def s8 : WerewolfCommunicationSystem :=
  { messages := [msgR 5, msgR 6, msgR 7, msgR 8, msgR 9, msgR 10, msgR 14]
    teamDecisions := []
    communicationHistory := [(5, [msgR 5]), (7, [msgR 7]), (14, [msgR 14])] }

theorem isSome_orElse_orElse (x y : Option Nat) (v : Nat) :
    (x.orElse (fun _ => y.orElse (fun _ => some v))).isSome = true := by
  cases x <;> cases y <;> rfl

/-- C1: for every sequence of insertion calls on a store, the number of
stored entries immediately after any insertion call returns is at most 100;
and whenever an insertion makes the total exceed 100, the entries are
re-sorted by relevance × confidence descending and truncated to the top 80. -/
theorem addMemory_cap_and_eviction :
    (∀ (s : AIMemorySystem) (p : MemParams), (addMemory s p).memories.length ≤ 100)
  ∧ (∀ (role : Role) (pid : Nat) (tm : List Nat) (ps : List MemParams),
      (insertMemories (mkAIMemorySystem role pid tm) ps).memories.length ≤ 100)
  ∧ (∀ (s : AIMemorySystem) (p : MemParams), s.memories.length + 1 > 100 →
      (addMemory s p).memories =
        (sortByDesc memScore (s.memories ++ [mkMemoryEntry s p])).take 80) := by
  have hstep : ∀ (s : AIMemorySystem) (p : MemParams),
      (addMemory s p).memories.length ≤ 100 := by
    intro s p
    simp only [addMemory]
    split
    · simp [List.length_take]
    · next h => omega
  have hseq : ∀ (ps : List MemParams) (s : AIMemorySystem), s.memories.length ≤ 100 →
      (insertMemories s ps).memories.length ≤ 100 := by
    intro ps
    induction ps with
    | nil => intro s h; exact h
    | cons p ps ih =>
        intro s h
        exact ih _ (hstep s p)
  refine ⟨hstep, fun role pid tm ps => hseq ps _ (by simp [mkAIMemorySystem]), ?_⟩
  intro s p h
  have hc : (s.memories ++ [mkMemoryEntry s p]).length > 100 := by
    simpa [List.length_append] using h
  simp only [addMemory, if_pos hc]

theorem addMemory_cap_and_eviction_witness :
    (addMemory sys100 pW).memories.length ≤ 100 ∧
    (insertMemories (mkAIMemorySystem Role.villager 2 []) [pW]).memories.length ≤ 100 ∧
    (sys100.memories.length + 1 > 100 ∧
      (addMemory sys100 pW).memories =
        (sortByDesc memScore (sys100.memories ++ [mkMemoryEntry sys100 pW])).take 80) :=
  ⟨addMemory_cap_and_eviction.1 sys100 pW,
   addMemory_cap_and_eviction.2.1 Role.villager 2 [] [pW],
   by decide,
   addMemory_cap_and_eviction.2.2 sys100 pW (by decide)⟩

/-- C9: `getMemorySummary` (summarize) is a pure query: the call returns
the state unchanged, and a second call with the same `maxEntries` and no
intervening mutation returns the identical string. -/
theorem getMemorySummary_idempotent (s : AIMemorySystem) (maxEntries : Nat) :
    (getMemorySummaryCall s maxEntries).2 = s ∧
    (getMemorySummaryCall ((getMemorySummaryCall s maxEntries).2) maxEntries).1 =
      (getMemorySummaryCall s maxEntries).1 :=
  ⟨rfl, rfl⟩

/-- C3 counterexample: with the spec's order — "我是预言家" first, then
"我不是预言家" — the call on the *second* speech detects nothing and stores
no contradiction entry, because the source requires the affirmation in the
current speech and the denial in a past one. -/
theorem contradiction_order_counterexample :
    detectContradictions 1 spB [[spA], [spB]] = [] ∧
    ((analyzeSpeech sysV spB [[spA], [spB]] []).memories.filter
      (fun m => m.type == MemType.contradiction)) = [] := by decide

/-- C3 amended: with the denial first and the affirmation second, the call
on the second speech stores exactly one contradiction entry with confidence
0.8 and relevance 0.9. -/
theorem contradiction_reverse_order_detected :
    ((analyzeSpeech sysV spA [[spB], [spA]] []).memories.filter
      (fun m => m.type == MemType.contradiction)).map
      (fun m => (m.confidence, m.relevance)) = [(mkRat 8 10, mkRat 9 10)] := by decide

/-- C4 counterexample: with the suggestion list, `targetCandidates` and
`alivePlayers` all empty, `negotiateKillTarget` dereferences
`context.alivePlayers[0].id` on `undefined` and throws (modelled `none`)
instead of returning a decision. -/
theorem negotiate_empty_context_throws :
    negotiateKillTarget mkCommSystem ctxE [] = none := by decide

/-- C4 amended: `negotiateKillTarget` never throws provided the context's
`alivePlayers` list is non-empty — the fallback chain (first legal
candidate, then first alive player) then always produces a decision; with
no suggestions and no candidates the decision's target is the first alive
player's id. -/
theorem negotiate_no_throw_if_alive_nonempty
    (s : WerewolfCommunicationSystem) (ctx : WerewolfCommunicationContext)
    (suggestions : List TargetSuggestion) (h : ctx.alivePlayers ≠ []) :
    (negotiateKillTarget s ctx suggestions).isSome = true ∧
    (∀ (p : PlayerInfo) (l : List PlayerInfo), ctx.targetCandidates = [] →
      ctx.alivePlayers = p :: l →
      (negotiateKillTarget s ctx []).map (fun r => r.1.targetPlayerId) = some p.id) := by
  constructor
  · obtain ⟨p, l, hl⟩ := List.exists_cons_of_ne_nil h
    have hsome : (makeTeamDecision (analyzeTargetSuggestions suggestions) ctx).isSome = true := by
      simp only [makeTeamDecision, hl, List.head?_cons, Option.map_some']
      rw [Option.isSome_map']
      exact isSome_orElse_orElse _ _ _
    obtain ⟨d, hd⟩ := Option.isSome_iff_exists.mp hsome
    simp [negotiateKillTarget, hd]
  · intro p l hc hl
    simp [negotiateKillTarget, makeTeamDecision, bestTargetOf, analyzeTargetSuggestions,
      hl, hc, Option.orElse]

theorem negotiate_no_throw_witness :
    (negotiateKillTarget mkCommSystem ctx6 []).isSome = true ∧
    (negotiateKillTarget mkCommSystem ctx0 []).map
      (fun r => r.1.targetPlayerId) = some (PlayerInfo.mk 0).id :=
  ⟨(negotiate_no_throw_if_alive_nonempty mkCommSystem ctx6 [] (by decide)).1,
   (negotiate_no_throw_if_alive_nonempty mkCommSystem ctx0 [] (by decide)).2
     ⟨0⟩ [⟨1⟩, ⟨2⟩] (by decide) (by decide)⟩

/-- C6: with an empty suggestion list and `targetCandidates = [5, 7]`, the
decision's target is 5 (the first candidate) and its consensus flag is
false. -/
theorem negotiate_fallback_first_candidate
    (s : WerewolfCommunicationSystem) (ctx : WerewolfCommunicationContext)
    (h : ctx.targetCandidates = [5, 7]) :
    (negotiateKillTarget s ctx []).map
      (fun r => (r.1.targetPlayerId, r.1.consensus)) = some (5, false) := by
  simp [negotiateKillTarget, makeTeamDecision, bestTargetOf, analyzeTargetSuggestions,
    h, Option.orElse, mapGet]

theorem negotiate_fallback_first_candidate_witness :
    (negotiateKillTarget mkCommSystem ctx6 []).map
      (fun r => (r.1.targetPlayerId, r.1.consensus)) = some (5, false) :=
  negotiate_fallback_first_candidate mkCommSystem ctx6 (by decide)

/-- C8 counterexample: a message whose round differs from `currentRound`
by more than 3 in absolute value but lies in the *future* is retained by
`cleanup`, because the source tests the signed difference
`currentRound - round > 3`. -/
theorem cleanup_future_round_counterexample :
    msgR 14 ∈ s8.messages ∧ ((14 : Int) - 10).natAbs > 3 ∧
    msgR 14 ∈ (cleanup s8 10).messages := by decide

/-- C8 amended: `cleanup(currentRound)` removes exactly the messages and
history buckets from rounds more than 3 before `currentRound`
(`currentRound - round > 3`) and retains all others — including messages
from rounds after `currentRound`; in particular `cleanup(10)` removes every
message with round ≤ 6 and retains every message with round in 7..10. -/
theorem cleanup_age_window (s : WerewolfCommunicationSystem) (currentRound : Int) :
    (∀ m : WerewolfMessage, m ∈ (cleanup s currentRound).messages ↔
      m ∈ s.messages ∧ currentRound - m.round ≤ 3)
  ∧ (∀ rb : Int × List WerewolfMessage,
      rb ∈ (cleanup s currentRound).communicationHistory ↔
        rb ∈ s.communicationHistory ∧ currentRound - rb.1 ≤ 3)
  ∧ (∀ m ∈ s.messages, m.round ≤ 6 → m ∉ (cleanup s 10).messages)
  ∧ (∀ m ∈ s.messages, 7 ≤ m.round → m.round ≤ 10 → m ∈ (cleanup s 10).messages) := by
  refine ⟨?_, ?_, ?_, ?_⟩
  · intro m
    simp [cleanup, List.mem_filter]
  · intro rb
    simp [cleanup, List.mem_filter]
  · intro m hm h6
    simp [cleanup, List.mem_filter, hm]
    omega
  · intro m hm h7 h10
    simp [cleanup, List.mem_filter, hm]
    omega

theorem cleanup_age_window_witness :
    (msgR 7 ∈ (cleanup s8 10).messages ↔
      msgR 7 ∈ s8.messages ∧ (10 : Int) - (msgR 7).round ≤ 3) ∧
    msgR 5 ∉ (cleanup s8 10).messages ∧
    msgR 8 ∈ (cleanup s8 10).messages :=
  ⟨(cleanup_age_window s8 10).1 (msgR 7),
   (cleanup_age_window s8 10).2.2.1 (msgR 5) (by decide) (by decide),
   (cleanup_age_window s8 10).2.2.2 (msgR 8) (by decide) (by decide) (by decide)⟩

/-- C5 counterexample: both of the two alive allies suggest the player with
id 0 — a strict majority (2 > 2/2) for the winning target — yet the
decision's consensus flag is false, because the winning target id 0 is
JS-falsy and the source then skips the consensus computation. -/
theorem consensus_truthiness_counterexample :
    bestTargetOf (analyzeTargetSuggestions suggs0) = some 0 ∧
    (mapGet (analyzeTargetSuggestions suggs0) 0).map (fun d => d.votes) = some 2 ∧
    ((2 : ℚ) > ((ctx0.aliveWerewolves.length : Nat) : ℚ) / 2) ∧
    (negotiateKillTarget mkCommSystem ctx0 suggs0).map
      (fun r => r.1.consensus) = some false := by
  refine ⟨by decide, by decide, ?_, by decide⟩
  norm_num [ctx0]

/-- C5 amended: on the concrete scenario (three ally suggestions for target
2 with priorities 5,5,5, one for target 3 with priority 1, four alive
allies) the decision selects target 2 with consensus true; in general, when
the winning target selected from the suggestions has a nonzero (JS-truthy)
id, the consensus flag is true iff its suggestion-vote count strictly
exceeds half the number of currently-alive allied members — a winning
target with id 0 instead always yields consensus false. -/
theorem consensus_strict_majority :
    ((negotiateKillTarget mkCommSystem ctx5 suggs5).map
      (fun r => (r.1.targetPlayerId, r.1.consensus)) = some (2, true))
  ∧ (∀ (s : WerewolfCommunicationSystem) (ctx : WerewolfCommunicationContext)
      (suggestions : List TargetSuggestion) (t : Nat) (d : TargetData),
      bestTargetOf (analyzeTargetSuggestions suggestions) = some t →
      t ≠ 0 →
      mapGet (analyzeTargetSuggestions suggestions) t = some d →
      (negotiateKillTarget s ctx suggestions).map (fun r => r.1.consensus) =
        some (decide ((d.votes : ℚ) > ((ctx.aliveWerewolves.length : Nat) : ℚ) / 2))) := by
  constructor
  · decide
  · intro s ctx suggestions t d h1 h2 h3
    have ht : (t == 0) = false := by simpa using h2
    simp only [negotiateKillTarget, makeTeamDecision, h1, ht, h3, Bool.false_and,
      if_neg, Bool.not_eq_true, if_false]
    simp [Option.orElse, decide_eq_decide, qofNat_eq, qhalf_eq]

theorem consensus_strict_majority_witness :
    (negotiateKillTarget mkCommSystem ctx5 suggs5).map (fun r => r.1.consensus) =
      some (decide ((dataP2.votes : ℚ) > ((ctx5.aliveWerewolves.length : Nat) : ℚ) / 2)) :=
  consensus_strict_majority.2 mkCommSystem ctx5 suggs5 2 dataP2
    (by decide) (by decide) (by decide)

theorem foldl_preserve {α β γ : Type _} (f : β → α → β) (g : β → γ)
    (h : ∀ b a, g (f b a) = g b) : ∀ (l : List α) (b : β), g (l.foldl f b) = g b := by
  intro l
  induction l with
  | nil => intro b; rfl
  | cons x xs ih => intro b; rw [List.foldl_cons, ih, h]

theorem suspicionStep_god (content : String) (speakerId : Nat) (a : GameAnalysis)
    (w : Nat) : (suspicionStep content speakerId a w).godRoleCandidates =
      a.godRoleCandidates := by
  rw [suspicionStep]
  split <;> rfl

theorem suspicionVoteStep_god (ctx : WerewolfCommunicationContext) (a : GameAnalysis)
    (v : Vote) : (suspicionVoteStep ctx a v).godRoleCandidates = a.godRoleCandidates := by
  rw [suspicionVoteStep]
  split
  · split <;> rfl
  · rfl

theorem safeStep_god (ctx : WerewolfCommunicationContext) (a : GameAnalysis)
    (p : PlayerInfo) : (safeStep ctx a p).godRoleCandidates = a.godRoleCandidates := by
  rw [safeStep]
  split
  · rfl
  · split <;> rfl

theorem or_if_some (x : Option Nat) (b1 b2 : Bool) (v : Nat) :
    (x.or (if b1 = true then some v else none)).or (if b2 = true then some v else none) =
      x.or (if (b1 || b2) = true then some v else none) := by
  cases x <;> cases b1 <;> cases b2 <;> simp [Option.or]

theorem godCandidateStep_head (pid : Nat) (b : Bool) (a : GameAnalysis) :
    (godCandidateStep pid b a).godRoleCandidates.head? =
      a.godRoleCandidates.head?.or (if b = true then some pid else none) := by
  cases b
  · simp only [godCandidateStep, Bool.false_eq_true, if_false]
    cases h : a.godRoleCandidates.head? <;> simp [Option.or, h]
  · simp only [godCandidateStep, if_true]
    by_cases hmem : a.godRoleCandidates.contains pid = true
    · have hne : a.godRoleCandidates ≠ [] := by
        intro hnil
        rw [hnil] at hmem
        simp at hmem
      obtain ⟨x, xs, hx⟩ := List.exists_cons_of_ne_nil hne
      simp only [hmem]
      rw [if_pos trivial]
      simp [hx, Option.or]
    · simp only [Bool.not_eq_true] at hmem
      simp only [hmem, Bool.false_eq_true, if_false, if_true]
      simp only [List.head?_append]
      cases h : a.godRoleCandidates.head? <;> simp [Option.or, h]

theorem situationStep_god_head (ctx : WerewolfCommunicationContext) (a : GameAnalysis)
    (sp : Speech) :
    (situationStep ctx a sp).godRoleCandidates.head? =
      a.godRoleCandidates.head?.or
        (if isGodMarkerSpeech ctx.werewolfTeam sp then some sp.playerId else none) := by
  have hfold : ∀ b : GameAnalysis,
      (ctx.werewolfTeam.foldl (suspicionStep (jsToLower sp.content) sp.playerId)
        b).godRoleCandidates = b.godRoleCandidates :=
    fun b => foldl_preserve _ _ (fun b w => suspicionStep_god _ _ b w) _ b
  simp only [situationStep, isGodMarkerSpeech]
  by_cases hteam : ctx.werewolfTeam.contains sp.playerId = true
  · simp only [hteam, Bool.not_true, Bool.false_and, Bool.false_eq_true, if_false, if_true]
    cases h : a.godRoleCandidates.head? <;> simp [Option.or, h]
  · simp only [Bool.not_eq_true] at hteam
    simp only [hteam, Bool.not_false, Bool.true_and, Bool.false_eq_true, if_false]
    have hcomp :
        (godCandidateStep sp.playerId (witchMarker (jsToLower sp.content))
          (godCandidateStep sp.playerId (seerMarker (jsToLower sp.content))
            a)).godRoleCandidates.head? =
          a.godRoleCandidates.head?.or
            (if (seerMarker (jsToLower sp.content) || witchMarker (jsToLower sp.content)) = true
              then some sp.playerId else none) := by
      rw [godCandidateStep_head, godCandidateStep_head, or_if_some]
    split
    · rw [hfold]
      exact hcomp
    · exact hcomp

theorem foldl_situationStep_god_head (ctx : WerewolfCommunicationContext)
    (l : List Speech) (a : GameAnalysis) :
    (l.foldl (situationStep ctx) a).godRoleCandidates.head? =
      a.godRoleCandidates.head?.or
        ((l.find? (isGodMarkerSpeech ctx.werewolfTeam)).map (fun sp => sp.playerId)) := by
  induction l generalizing a with
  | nil =>
      cases h : a.godRoleCandidates.head? <;> simp [Option.or, h]
  | cons sp l ih =>
      rw [List.foldl_cons, ih, situationStep_god_head]
      by_cases h : isGodMarkerSpeech ctx.werewolfTeam sp = true
      · rw [List.find?_cons_of_pos _ h]
        simp only [h, if_true, Option.map_some']
        cases hh : a.godRoleCandidates.head? <;> simp [Option.or, hh]
      · rw [List.find?_cons_of_neg _ (by simp [h])]
        simp only [h, Bool.false_eq_true, if_false]
        cases hh : a.godRoleCandidates.head? <;> simp [Option.or, hh]

theorem analyzeGameSituation_god_head (ctx : WerewolfCommunicationContext)
    (allSpeeches : AllSpeeches) (allVotes : AllVotes) :
    (analyzeGameSituation ctx allSpeeches allVotes).godRoleCandidates.head? =
      firstGodCandidate ctx.werewolfTeam allSpeeches := by
  simp only [analyzeGameSituation, firstGodCandidate]
  rw [foldl_preserve (safeStep ctx) (fun a => a.godRoleCandidates)
    (fun b p => safeStep_god ctx b p)]
  rw [foldl_preserve (fun a votes => votes.foldl (suspicionVoteStep ctx) a)
    (fun a => a.godRoleCandidates)
    (fun b votes => foldl_preserve _ _ (fun b v => suspicionVoteStep_god ctx b v) votes b)]
  rw [← List.foldl_flatten]
  rw [foldl_situationStep_god_head]
  simp [Option.or]

/-- C7: if the speech history holds a speech by a non-allied player whose
text contains a god-role (seer or witch) marker, and no speech states
suspicion of an allied player, then the generated communication is a
high-priority `target_suggestion` whose suggested target is the first such
speaker in iteration order. -/
theorem communication_targets_first_god_candidate
    (s : WerewolfCommunicationSystem) (senderId : Nat)
    (ctx : WerewolfCommunicationContext) (allSpeeches : AllSpeeches) (allVotes : AllVotes)
    (pid : Nat)
    (hgod : firstGodCandidate ctx.werewolfTeam allSpeeches = some pid)
    (hnosusp : ∀ sp ∈ allSpeeches.flatten, speechSuspectsAlly ctx.werewolfTeam sp = false) :
    (generateWerewolfCommunication s senderId ctx allSpeeches allVotes).1.messageType =
        MsgType.target_suggestion ∧
    (generateWerewolfCommunication s senderId ctx allSpeeches allVotes).1.priority =
        Urgency.high ∧
    (generateWerewolfCommunication s senderId ctx allSpeeches allVotes).1.suggestedTarget =
        some pid := by
  have hhead := analyzeGameSituation_god_head ctx allSpeeches allVotes
  rw [hgod] at hhead
  obtain ⟨rest, hg⟩ : ∃ rest,
      (analyzeGameSituation ctx allSpeeches allVotes).godRoleCandidates = pid :: rest := by
    cases hc : (analyzeGameSituation ctx allSpeeches allVotes).godRoleCandidates with
    | nil => rw [hc] at hhead; simp at hhead
    | cons x r =>
        rw [hc] at hhead
        simp at hhead
        exact ⟨r, by rw [hhead]⟩
  simp [generateWerewolfCommunication, generateCommunicationContent, hg]

theorem communication_targets_first_god_candidate_witness :
    (generateWerewolfCommunication mkCommSystem 3 ctx7 speeches7 []).1.messageType =
        MsgType.target_suggestion ∧
    (generateWerewolfCommunication mkCommSystem 3 ctx7 speeches7 []).1.priority =
        Urgency.high ∧
    (generateWerewolfCommunication mkCommSystem 3 ctx7 speeches7 []).1.suggestedTarget =
        some 1 :=
  communication_targets_first_god_candidate mkCommSystem 3 ctx7 speeches7 [] 1
    (by decide) (by decide)

theorem flatMap_congr_mem {α β : Type _} {l : List α} {f g : α → List β}
    (h : ∀ a ∈ l, f a = g a) : l.flatMap f = l.flatMap g := by
  induction l with
  | nil => rfl
  | cons x xs ih => simp_all [List.flatMap_cons]

theorem mapGet_mem {κ α : Type _} [BEq κ] {m : List (κ × α)} {k : κ} {v : α}
    (h : mapGet m k = some v) : ∃ k', (k', v) ∈ m := by
  rw [mapGet] at h
  cases hfind : m.find? (fun p => p.1 == k) with
  | none => rw [hfind] at h; simp at h
  | some q =>
      rw [hfind] at h
      simp at h
      exact ⟨q.1, by
        have := List.mem_of_find?_eq_some hfind
        rwa [← h, Prod.mk.eta]⟩

theorem mapSet_forall {κ α : Type _} [BEq κ] {m : List (κ × α)} {k : κ} {v : α}
    (P : α → Prop) (hm : ∀ pp ∈ m, P pp.2) (hv : P v) :
    ∀ pp ∈ mapSet m k v, P pp.2 := by
  intro pp hpp
  rw [mapSet] at hpp
  split at hpp
  · obtain ⟨q, hq, hfq⟩ := List.mem_map.mp hpp
    by_cases hk : (q.1 == k) = true
    · rw [if_pos hk] at hfq
      rw [← hfq]
      exact hv
    · rw [if_neg hk] at hfq
      rw [← hfq]
      exact hm q hq
  · rcases List.mem_append.mp hpp with hmem | hmem
    · exact hm pp hmem
    · rw [List.mem_singleton.mp hmem]
      exact hv

/-- The profile invariant: no profile ever holds a contradiction record. -/
def ProfilesContraFree (s : AIMemorySystem) : Prop :=
  ∀ pp ∈ s.playerProfiles, pp.2.contradictions = []

theorem updatePlayerProfile_contraFree {s : AIMemorySystem} (pid : Nat)
    (analysis : SpeechInsights) (ap : List PlayerInfo) (hs : ProfilesContraFree s) :
    ProfilesContraFree (updatePlayerProfile s pid analysis ap) := by
  intro pp hpp
  rw [updatePlayerProfile] at hpp
  refine mapSet_forall (fun v => v.contradictions = []) (fun q hq => hs q hq) ?_ pp hpp
  have hbase : ((mapGet s.playerProfiles pid).getD
      { playerId := pid, suspectedRole := none, confidence := 0, behaviors := []
        contradictions := [], alliances := [], threats := []
        lastUpdated := s.gameContext.currentRound }).contradictions = [] := by
    cases hget : mapGet s.playerProfiles pid with
    | none => rfl
    | some v =>
        obtain ⟨k', hk'⟩ := mapGet_mem hget
        simpa using hs (k', v) hk'
  split <;> simpa using hbase

theorem analyzeSpeech_contraFree {s : AIMemorySystem} (sp : Speech) (sps : AllSpeeches)
    (ap : List PlayerInfo) (hs : ProfilesContraFree s) :
    ProfilesContraFree (analyzeSpeech s sp sps ap) := by
  rw [analyzeSpeech]
  have h2 := updatePlayerProfile_contraFree (s := addMemory s
    { type := MemType.speech_analysis
      playerId := some sp.playerId
      content := (extractSpeechInsights sp sps).summary
      confidence := (extractSpeechInsights sp sps).confidence
      relevance := calculateRelevance s sp.playerId (extractSpeechInsights sp sps).keywords
      source := MemSource.observation }) sp.playerId (extractSpeechInsights sp sps) ap hs
  split
  · exact h2
  · exact h2

theorem foldl_addMemory_profiles {α : Type _} (g : α → MemParams) (l : List α)
    (s₀ : AIMemorySystem) :
    (l.foldl (fun s x => addMemory s (g x)) s₀).playerProfiles = s₀.playerProfiles :=
  foldl_preserve (fun s x => addMemory s (g x)) (fun s => s.playerProfiles)
    (fun b a => rfl) l s₀

theorem deduceRolesStep_profiles (sps : AllSpeeches) (av : AllVotes)
    (b : AIMemorySystem × List (Nat × Role × ℚ)) (a : PlayerInfo) :
    (deduceRolesStep sps av b a).1.playerProfiles = b.1.playerProfiles := by
  rw [deduceRolesStep]
  split
  · rfl
  · dsimp only
    split <;> rfl

theorem deduceRoles_profiles (s : AIMemorySystem) (ap : List PlayerInfo)
    (sps : AllSpeeches) (av : AllVotes) :
    (deduceRoles s ap sps av).1.playerProfiles = s.playerProfiles := by
  rw [deduceRoles]
  exact foldl_preserve (deduceRolesStep sps av) (fun acc => acc.1.playerProfiles)
    (deduceRolesStep_profiles sps av) ap (s, [])

theorem reach_contraFree {s : AIMemorySystem} (h : Reach s) : ProfilesContraFree s := by
  induction h with
  | init role pid tm => intro pp hpp; simp [mkAIMemorySystem] at hpp
  | updateCtx r ph _ ih => exact ih
  | speech sp sps ap _ ih => exact analyzeSpeech_contraFree sp sps ap ih
  | votes v av ap _ ih =>
      intro pp hpp
      rw [analyzeVotingPattern, foldl_addMemory_profiles] at hpp
      exact ih pp hpp
  | roles ap sps av _ ih =>
      intro pp hpp
      rw [deduceRoles_profiles] at hpp
      exact ih pp hpp
  | strat c _ ih =>
      intro pp hpp
      rw [generateStrategy] at hpp
      exact ih pp hpp

/-- C10 (implicit): no operation ever appends to a profile's contradictions
list, so on every reachable state every profile's contradictions list is
empty; consequently the threat-assessment component for contradiction count
> 2 and the role-deduction wolf boost for contradiction count > 1 are never
applied — the functions agree with their variants with those branches
removed. -/
theorem contradictions_never_recorded (s : AIMemorySystem) (h : Reach s) :
    (∀ pp ∈ s.playerProfiles, pp.2.contradictions = [])
  ∧ getThreatAssessment s = getThreatAssessmentNoContradictionTerm s
  ∧ (∀ (pid : Nat) (sps : AllSpeeches) (av : AllVotes),
      analyzePlayerRole s pid sps av = analyzePlayerRoleNoContradictionBoost s pid sps av) := by
  have hfree : ProfilesContraFree s := reach_contraFree h
  refine ⟨hfree, ?_, ?_⟩
  · rw [getThreatAssessment, getThreatAssessmentNoContradictionTerm]
    congr 1
    refine flatMap_congr_mem ?_
    intro pp hpp
    have hc := hfree pp hpp
    rw [threatOf, threatOfNoContra]
    simp [hc]
  · intro pid sps av
    rw [analyzePlayerRole, analyzePlayerRoleNoContradictionBoost]
    cases hget : mapGet s.playerProfiles pid with
    | none => simp [hget]
    | some v =>
        obtain ⟨k', hk'⟩ := mapGet_mem hget
        have hc : v.contradictions = [] := by simpa using hfree (k', v) hk'
        simp [hget, hc]

theorem contradictions_never_recorded_witness :
    (∀ pp ∈ (analyzeSpeech sysV spA [[spA]] []).playerProfiles, pp.2.contradictions = [])
  ∧ getThreatAssessment (analyzeSpeech sysV spA [[spA]] []) =
      getThreatAssessmentNoContradictionTerm (analyzeSpeech sysV spA [[spA]] [])
  ∧ (∀ (pid : Nat) (sps : AllSpeeches) (av : AllVotes),
      analyzePlayerRole (analyzeSpeech sysV spA [[spA]] []) pid sps av =
        analyzePlayerRoleNoContradictionBoost (analyzeSpeech sysV spA [[spA]] []) pid sps av) :=
  contradictions_never_recorded _
    (Reach.speech spA [[spA]] [] (Reach.init Role.villager 2 []))

theorem qadd_nonneg {a b : ℚ} (ha : 0 ≤ a) (hb : 0 ≤ b) : 0 ≤ qadd a b := by
  rw [qadd_eq]
  linarith

theorem qmul_nonneg {a b : ℚ} (ha : 0 ≤ a) (hb : 0 ≤ b) : 0 ≤ qmul a b := by
  rw [qmul_eq]
  exact mul_nonneg ha hb

theorem qmin_nonneg {a b : ℚ} (ha : 0 ≤ a) (hb : 0 ≤ b) : 0 ≤ qmin a b := by
  rw [qmin_eq]
  exact le_min ha hb

theorem qmin_le_right (a b : ℚ) : qmin a b ≤ b := by
  rw [qmin_eq]
  exact min_le_right a b

theorem qbump_nonneg {q : ℚ} (hq : 0 ≤ q) (b : Bool) (d : ℚ) (hd : 0 ≤ d) :
    0 ≤ (if b = true then qadd q d else q) := by
  cases b
  · simpa
  · simpa using qadd_nonneg hq hd

theorem extractSpeechInsights_conf_bounds (sp : Speech) (sps : AllSpeeches) :
    0 ≤ (extractSpeechInsights sp sps).confidence ∧
      (extractSpeechInsights sp sps).confidence ≤ 1 := by
  rw [extractSpeechInsights]
  have h : ∀ (b : Bool) (q : ℚ), 0 ≤ q → 0 ≤ (if b = true then qadd q (mkRat 1 10) else q) :=
    fun b q hq => qbump_nonneg hq b _ (by decide)
  exact ⟨qmin_nonneg (h _ _ (h _ _ (h _ _ (h _ _ (h _ _ (by decide)))))) (by decide),
    qmin_le_right _ _⟩

theorem calculateRelevance_bounds (s : AIMemorySystem) (pid : Nat) (kws : List String) :
    0 ≤ calculateRelevance s pid kws ∧ calculateRelevance s pid kws ≤ 1 := by
  rw [calculateRelevance]
  refine ⟨qmin_nonneg ?_ (by decide), qmin_le_right _ _⟩
  apply qbump_nonneg ?_ _ _ (by decide)
  split
  · exact qmul_nonneg (by decide) (by decide)
  · decide

theorem foldl_roleScoreStep_nonneg (l : List Speech) (acc : ℚ × ℚ × ℚ × ℚ)
    (h : 0 ≤ acc.1 ∧ 0 ≤ acc.2.1 ∧ 0 ≤ acc.2.2.1 ∧ 0 ≤ acc.2.2.2) :
    0 ≤ (l.foldl roleScoreStep acc).1 ∧ 0 ≤ (l.foldl roleScoreStep acc).2.1 ∧
    0 ≤ (l.foldl roleScoreStep acc).2.2.1 ∧ 0 ≤ (l.foldl roleScoreStep acc).2.2.2 := by
  induction l generalizing acc with
  | nil => exact h
  | cons sp l ih =>
      rw [List.foldl_cons]
      apply ih
      rw [roleScoreStep]
      dsimp only
      obtain ⟨h1, h2, h3, h4⟩ := h
      exact ⟨qbump_nonneg h1 _ _ (by decide), qbump_nonneg h2 _ _ (by decide),
        qbump_nonneg h3 _ _ (by decide), qbump_nonneg h4 _ _ (by decide)⟩

theorem headD_sortByDesc_snd_nonneg (l : List (Role × ℚ)) (d : Role × ℚ)
    (hd : 0 ≤ d.2) (hl : ∀ x ∈ l, 0 ≤ x.2) :
    0 ≤ ((sortByDesc (fun rs => rs.2) l).headD d).2 := by
  cases hs : sortByDesc (fun rs => rs.2) l with
  | nil => simpa using hd
  | cons x xs =>
      have hx : x ∈ sortByDesc (fun rs => rs.2) l := by
        rw [hs]
        exact List.mem_cons_self x xs
      simpa using hl x (mem_sortByDesc.mp hx)

theorem analyzePlayerRole_conf_bounds (s : AIMemorySystem) (pid : Nat)
    (sps : AllSpeeches) (av : AllVotes) :
    0 ≤ (analyzePlayerRole s pid sps av).2 ∧ (analyzePlayerRole s pid sps av).2 ≤ 1 := by
  rw [analyzePlayerRole]
  have hf := foldl_roleScoreStep_nonneg (playerSpeechesOf pid sps) (0, 0, 0, 0)
    ⟨by decide, by decide, by decide, by decide⟩
  constructor
  · apply qmin_nonneg
    · apply headD_sortByDesc_snd_nonneg
      · decide
      · intro x hx
        simp only [List.mem_cons, List.not_mem_nil, or_false] at hx
        rcases hx with rfl | rfl | rfl | rfl
        · dsimp only
          cases hget : mapGet s.playerProfiles pid with
          | none => simpa [hget] using hf.1
          | some profile =>
              simp only [hget]
              split
              · exact qadd_nonneg hf.1 (by decide)
              · exact hf.1
        · exact hf.2.1
        · exact hf.2.2.1
        · exact hf.2.2.2
    · decide
  · exact le_trans (qmin_le_right _ _) (by decide)

/-- The per-entry invariant of claim C2. -/
def EntryInUnit (m : AIMemoryEntry) : Prop :=
  0 ≤ m.confidence ∧ m.confidence ≤ 1 ∧ 0 ≤ m.relevance ∧ m.relevance ≤ 1

/-- All stored entries satisfy the per-entry invariant. -/
def MemOK (s : AIMemorySystem) : Prop := ∀ m ∈ s.memories, EntryInUnit m

theorem addMemory_memOK {s : AIMemorySystem} {p : MemParams} (hs : MemOK s)
    (hc : 0 ≤ p.confidence ∧ p.confidence ≤ 1)
    (hr : 0 ≤ p.relevance ∧ p.relevance ≤ 1) : MemOK (addMemory s p) := by
  intro m hm
  rw [addMemory] at hm
  dsimp only at hm
  have hm' : m ∈ s.memories ++ [mkMemoryEntry s p] := by
    split at hm
    · exact mem_sortByDesc.mp (List.mem_of_mem_take hm)
    · exact hm
  rcases List.mem_append.mp hm' with h | h
  · exact hs m h
  · rw [List.mem_singleton.mp h]
    exact ⟨hc.1, hc.2, hr.1, hr.2⟩

theorem analyzeSpeech_memOK {s : AIMemorySystem} (sp : Speech) (sps : AllSpeeches)
    (ap : List PlayerInfo) (hs : MemOK s) : MemOK (analyzeSpeech s sp sps ap) := by
  rw [analyzeSpeech]
  have h1 : MemOK (addMemory s
      { type := MemType.speech_analysis
        playerId := some sp.playerId
        content := (extractSpeechInsights sp sps).summary
        confidence := (extractSpeechInsights sp sps).confidence
        relevance := calculateRelevance s sp.playerId (extractSpeechInsights sp sps).keywords
        source := MemSource.observation }) :=
    addMemory_memOK hs (extractSpeechInsights_conf_bounds sp sps)
      (calculateRelevance_bounds s sp.playerId _)
  have h2 : MemOK (updatePlayerProfile (addMemory s
      { type := MemType.speech_analysis
        playerId := some sp.playerId
        content := (extractSpeechInsights sp sps).summary
        confidence := (extractSpeechInsights sp sps).confidence
        relevance := calculateRelevance s sp.playerId (extractSpeechInsights sp sps).keywords
        source := MemSource.observation }) sp.playerId (extractSpeechInsights sp sps) ap) := by
    intro m hm
    rw [updatePlayerProfile] at hm
    dsimp only at hm
    exact h1 m hm
  split
  · refine addMemory_memOK h2 ?_ ?_
    · show 0 ≤ (mkRat 8 10 : ℚ) ∧ (mkRat 8 10 : ℚ) ≤ 1
      exact ⟨by decide, by decide⟩
    · show 0 ≤ (mkRat 9 10 : ℚ) ∧ (mkRat 9 10 : ℚ) ≤ 1
      exact ⟨by decide, by decide⟩
  · exact h2

theorem extractVotingPatterns_conf (votes : List Vote) (av : AllVotes) :
    ∀ p ∈ extractVotingPatterns votes av,
      p.confidence = mkRat 6 10 ∨ p.confidence = mkRat 1 2 := by
  intro p hp
  rw [extractVotingPatterns] at hp
  dsimp only at hp
  rw [List.mem_flatMap] at hp
  obtain ⟨pv, hpv, hmem⟩ := hp
  split at hmem
  · simp at hmem
  · rcases List.mem_append.mp hmem with h | h
    · split at h
      · rw [List.mem_singleton.mp h]
        left
        rfl
      · simp at h
    · split at h
      · rw [List.mem_singleton.mp h]
        right
        rfl
      · simp at h

theorem analyzeVotingPattern_memOK {s : AIMemorySystem} (v : List Vote) (av : AllVotes)
    (ap : List PlayerInfo) (hs : MemOK s) : MemOK (analyzeVotingPattern s v av ap) := by
  rw [analyzeVotingPattern]
  have hgen : ∀ (l : List VotingPattern),
      (∀ p ∈ l, p.confidence = mkRat 6 10 ∨ p.confidence = mkRat 1 2) →
      ∀ (s0 : AIMemorySystem), MemOK s0 →
      MemOK (l.foldl (fun s pattern =>
        addMemory s
          { type := MemType.vote_pattern
            playerId := some pattern.playerId
            content := pattern.description
            confidence := pattern.confidence
            relevance := mkRat 8 10
            source := MemSource.observation }) s0) := by
    intro l
    induction l with
    | nil => intro _ s0 h; exact h
    | cons p l ih =>
        intro hl s0 h0
        rw [List.foldl_cons]
        refine ih (fun q hq => hl q (List.mem_cons_of_mem _ hq)) _ ?_
        refine addMemory_memOK h0 ?_ ?_
        · show 0 ≤ p.confidence ∧ p.confidence ≤ 1
          rcases hl p (List.mem_cons_self _ _) with h | h <;> rw [h] <;>
            exact ⟨by decide, by decide⟩
        · show 0 ≤ (mkRat 8 10 : ℚ) ∧ (mkRat 8 10 : ℚ) ≤ 1
          exact ⟨by decide, by decide⟩
  exact hgen _ (extractVotingPatterns_conf v av) s hs

theorem deduceRolesStep_memOK (sps : AllSpeeches) (av : AllVotes)
    (b : AIMemorySystem × List (Nat × Role × ℚ)) (a : PlayerInfo) (hb : MemOK b.1) :
    MemOK (deduceRolesStep sps av b a).1 := by
  rw [deduceRolesStep]
  split
  · exact hb
  · dsimp only
    split
    · refine addMemory_memOK hb ?_ ?_
      · show 0 ≤ (analyzePlayerRole b.1 a.id sps av).2 ∧
            (analyzePlayerRole b.1 a.id sps av).2 ≤ 1
        exact analyzePlayerRole_conf_bounds b.1 a.id sps av
      · show 0 ≤ (mkRat 9 10 : ℚ) ∧ (mkRat 9 10 : ℚ) ≤ 1
        exact ⟨by decide, by decide⟩
    · exact hb

theorem deduceRoles_memOK {s : AIMemorySystem} (ap : List PlayerInfo) (sps : AllSpeeches)
    (av : AllVotes) (hs : MemOK s) : MemOK (deduceRoles s ap sps av).1 := by
  rw [deduceRoles]
  have hgen : ∀ (l : List PlayerInfo) (acc : AIMemorySystem × List (Nat × Role × ℚ)),
      MemOK acc.1 → MemOK ((l.foldl (deduceRolesStep sps av) acc)).1 := by
    intro l
    induction l with
    | nil => intro acc h; exact h
    | cons a l ih =>
        intro acc h
        rw [List.foldl_cons]
        exact ih _ (deduceRolesStep_memOK sps av acc a h)
  exact hgen ap (s, []) hs

theorem generateStrategy_memOK {s : AIMemorySystem} (c : StrategyContext)
    (hs : MemOK s) : MemOK (generateStrategy s c).1 := by
  rw [generateStrategy]
  refine addMemory_memOK hs ?_ ?_
  · show 0 ≤ (mkRat 7 10 : ℚ) ∧ (mkRat 7 10 : ℚ) ≤ 1
    exact ⟨by decide, by decide⟩
  · show 0 ≤ (1 : ℚ) ∧ (1 : ℚ) ≤ 1
    exact ⟨by decide, by decide⟩

theorem mem_ite_nil_left {α : Type _} {c : Prop} [Decidable c] {l : List α} {t : α}
    (h : t ∈ (if c then [] else l)) : t ∈ l := by
  split at h
  · simp at h
  · exact h

theorem mem_ite_singleton {α : Type _} {c : Prop} [Decidable c] {e t : α}
    (h : t ∈ (if c then [e] else [])) : t = e := by
  split at h
  · exact List.mem_singleton.mp h
  · simp at h

theorem threatOf_bounds (s : AIMemorySystem) (pp : Nat × PlayerProfile) :
    ∀ t ∈ threatOf s pp, 0 ≤ t.threatLevel ∧ t.threatLevel ≤ 1 := by
  intro t ht
  rw [threatOf] at ht
  have hte := mem_ite_singleton (mem_ite_nil_left ht)
  rw [hte]
  dsimp only
  constructor
  · apply qmin_nonneg
    · repeat' split
      all_goals decide
    · decide
  · exact qmin_le_right _ _

theorem getThreatAssessment_bounds (s : AIMemorySystem) :
    ∀ t ∈ getThreatAssessment s, 0 ≤ t.threatLevel ∧ t.threatLevel ≤ 1 := by
  intro t ht
  rw [getThreatAssessment] at ht
  rw [mem_sortByDesc, List.mem_flatMap] at ht
  obtain ⟨pp, hpp, hmem⟩ := ht
  exact threatOf_bounds s pp t hmem

theorem deduceRoles_returns_bounds (sps : AllSpeeches) (av : AllVotes) :
    ∀ (l : List PlayerInfo) (acc : AIMemorySystem × List (Nat × Role × ℚ)),
      (∀ x ∈ acc.2, 0 ≤ x.2.2 ∧ x.2.2 ≤ 1) →
      ∀ x ∈ (l.foldl (deduceRolesStep sps av) acc).2, 0 ≤ x.2.2 ∧ x.2.2 ≤ 1 := by
  intro l
  induction l with
  | nil => intro acc h; exact h
  | cons a l ih =>
      intro acc h
      rw [List.foldl_cons]
      apply ih
      rw [deduceRolesStep]
      split
      · exact h
      · dsimp only
        split
        · intro x hx
          rcases List.mem_append.mp hx with hx | hx
          · exact h x hx
          · rw [List.mem_singleton.mp hx]
            show 0 ≤ (analyzePlayerRole acc.1 a.id sps av).2 ∧
                (analyzePlayerRole acc.1 a.id sps av).2 ≤ 1
            exact analyzePlayerRole_conf_bounds acc.1 a.id sps av
        · exact h

/-- C2: on every reachable store state, every stored memory entry has
confidence and relevance in [0,1]; every threat level returned by
`getThreatAssessment` lies in [0,1]; and every confidence in the map
returned by `deduceRoles` lies in [0,1] — for arbitrary input speeches and
votes. -/
theorem memory_scores_in_unit_interval (s : AIMemorySystem) (h : Reach s) :
    (∀ m ∈ s.memories,
      0 ≤ m.confidence ∧ m.confidence ≤ 1 ∧ 0 ≤ m.relevance ∧ m.relevance ≤ 1)
  ∧ (∀ t ∈ getThreatAssessment s, 0 ≤ t.threatLevel ∧ t.threatLevel ≤ 1)
  ∧ (∀ (ap : List PlayerInfo) (sps : AllSpeeches) (av : AllVotes),
      ∀ x ∈ (deduceRoles s ap sps av).2, 0 ≤ x.2.2 ∧ x.2.2 ≤ 1) := by
  refine ⟨?_, getThreatAssessment_bounds s, ?_⟩
  · have hmem : MemOK s := by
      induction h with
      | init role pid tm =>
          intro m hm
          simp [mkAIMemorySystem] at hm
      | updateCtx r ph _ ih =>
          intro m hm
          exact ih m hm
      | speech sp sps ap _ ih => exact analyzeSpeech_memOK sp sps ap ih
      | votes v av ap _ ih => exact analyzeVotingPattern_memOK v av ap ih
      | roles ap sps av _ ih => exact deduceRoles_memOK ap sps av ih
      | strat c _ ih => exact generateStrategy_memOK c ih
    exact hmem
  · intro ap sps av
    rw [deduceRoles]
    exact deduceRoles_returns_bounds sps av ap (s, []) (by simp)

theorem memory_scores_in_unit_interval_witness :
    (∀ m ∈ (analyzeSpeech sysV spA [[spA]] []).memories,
      0 ≤ m.confidence ∧ m.confidence ≤ 1 ∧ 0 ≤ m.relevance ∧ m.relevance ≤ 1)
  ∧ (∀ t ∈ getThreatAssessment (analyzeSpeech sysV spA [[spA]] []),
      0 ≤ t.threatLevel ∧ t.threatLevel ≤ 1)
  ∧ (∀ (ap : List PlayerInfo) (sps : AllSpeeches) (av : AllVotes),
      ∀ x ∈ (deduceRoles (analyzeSpeech sysV spA [[spA]] []) ap sps av).2,
        0 ≤ x.2.2 ∧ x.2.2 ≤ 1) :=
  memory_scores_in_unit_interval _
    (Reach.speech spA [[spA]] [] (Reach.init Role.villager 2 []))
